import Mathlib

/-!
Shallow embedding of the web3-wallet core.

Two components are embedded from source:
* the per-wallet state store (`createWalletStoreAndActions` in the vanilla
  store module, `src/unnamed/part_001`): `startConnection` / `update` /
  `resetState` over `{chainId, accounts, isConnecting}` together with the
  private `nullifier` counter;
* the wallet proxy (`createWalletProxy` in the react package):
  the persisted proxy state `{currentWallet, connectionId}`, the combined
  hooks, and the `connect` / `autoConnect` / `autoConnectOnce` / `disconnect`
  wrappers.

Modelling conventions: JS numbers that the code compares against `0` via
truthiness are `Int` (for `chainId`) or `Nat` (for the `Date.now()`
timestamp `connectionId`); `undefined`-able fields are `Option`; an `async`
function that may reject is a function returning `Except`, and a rejected
`await` aborts the rest of the function body (so state writes placed after
the `await` do not happen on rejection).  The `endConnection` closure
captures only the local `nullifierCached`, so it is embedded as a function
taking that captured token explicitly.
-/

deriving instance DecidableEq for Except

/-- Errors raised by wallet-state validation (`InvalidChainId`,
`InvalidAccount` in the spec's taxonomy). -/
inductive WalletStoreError where
  | invalidChainId
  | invalidAccount
deriving Repr, DecidableEq

/-- `WalletState` from the core types: `{chainId, accounts, isConnecting}`.
`chainId` is a JS number (modelled as `Int`), `accounts` an optional array
of address strings. -/
structure WalletState where
  chainId : Option Int
  accounts : Option (List String)
  isConnecting : Bool
deriving Repr, DecidableEq

/-- `DEFAULT_WALLET_STATE` from the source. -/
def DEFAULT_WALLET_STATE : WalletState :=
  { chainId := none, accounts := none, isConnecting := false }

/-- `Partial<WalletState>` restricted to the two fields `update` reads,
exactly as the source's `update` treats its argument. -/
structure PartialWalletState where
  chainId : Option Int := none
  accounts : Option (List String) := none
deriving Repr, DecidableEq

/-- JS truthiness of an optional number: `undefined` and `0` are falsy,
every other number is truthy. -/
def jsTruthyOptInt : Option Int → Bool
  | none => false
  | some n => n != 0

/-- JS truthiness of the optional `Date.now()` timestamp `connectionId`:
`undefined` and `0` are falsy. -/
def jsTruthyOptNat : Option Nat → Bool
  | none => false
  | some n => n != 0

/-- JS nullish coalescing `a ?? b` on optional values, as used by the merge
step of `update`. -/
def jsNullish {α : Type} (a b : Option α) : Option α :=
  match a with
  | some x => some x
  | none => b

/-- Modelled from the spec: `validateChainId` is imported from `./utils`,
which is not under `src/`; the spec says validation "fails with
`InvalidChainId` if not a positive integer". -/
def validateChainId (chainId : Int) : Except WalletStoreError Unit :=
  if 0 < chainId then Except.ok () else Except.error WalletStoreError.invalidChainId

/-- Hex-digit test used by the address well-formedness check. -/
def isHexDigit (c : Char) : Bool :=
  c.isDigit || (('a' ≤ c) && (c ≤ 'f')) || (('A' ≤ c) && (c ≤ 'F'))

/-- Modelled from the spec: the shape of a "well-formed address-like string"
(`0x` followed by 40 hex digits), the domain accepted by `validateAccount`
from `./utils`, which is not under `src/`. -/
def isValidAccount (s : String) : Bool :=
  match s.data with
  | '0' :: 'x' :: hexPart => (hexPart.length == 40) && hexPart.all isHexDigit
  | _ => false

/-- Modelled from the spec: `validateAccount` from `./utils` (not under
`src/`) fails with `InvalidAccount` on a malformed address and returns the
account otherwise (modelled as returning it unchanged). -/
def validateAccount (s : String) : Except WalletStoreError String :=
  if isValidAccount s then Except.ok s else Except.error WalletStoreError.invalidAccount

/-- The account-validation loop of `update`
(`stateUpdate.accounts[i] = validateAccount(stateUpdate.accounts[i])`):
validate each account in order, propagating the first failure. -/
def validateAccounts : List String → Except WalletStoreError (List String)
  | [] => Except.ok []
  | a :: rest =>
    match validateAccount a with
    | Except.error e => Except.error e
    | Except.ok a' =>
      match validateAccounts rest with
      | Except.error e => Except.error e
      | Except.ok rest' => Except.ok (a' :: rest')

/-- The full state of one wallet store created by
`createWalletStoreAndActions`: the zustand cell plus the private
`nullifier` counter captured by the actions. -/
structure StoreState where
  walletState : WalletState
  nullifier : Nat
deriving Repr, DecidableEq

/-- `startConnection`: increments the nullifier, caches it
(`const nullifierCached = ++nullifier`), sets `isConnecting` to true, and
returns the cached token (the capture of the `endConnection` closure). -/
def startConnection (s : StoreState) : Nat × StoreState :=
  let nullifierCached := s.nullifier + 1
  (nullifierCached,
    { walletState := { s.walletState with isConnecting := true },
      nullifier := nullifierCached })

/-- The `endConnection` closure returned by `startConnection`, applied to
its captured token: clears `isConnecting` only when the store's nullifier
still equals the captured one. -/
def endConnection (nullifierCached : Nat) (s : StoreState) : StoreState :=
  if s.nullifier = nullifierCached then
    { s with walletState.isConnecting := false }
  else s

/-- `update(stateUpdate)` from the source: validate `chainId` (when
provided) then every provided account, and only then increment the
nullifier and merge the update over the existing state, clearing
`isConnecting` when the merged `chainId` and `accounts` are both truthy.
A validation failure is a synchronous throw: nothing was mutated. -/
def update (stateUpdate : PartialWalletState) (s : StoreState) :
    Except WalletStoreError StoreState :=
  match (match stateUpdate.chainId with
         | some c => validateChainId c
         | none => Except.ok ()) with
  | Except.error e => Except.error e
  | Except.ok _ =>
    match (match stateUpdate.accounts with
           | some accs => Except.map some (validateAccounts accs)
           | none => Except.ok none) with
    | Except.error e => Except.error e
    | Except.ok validatedAccounts =>
      let chainId := jsNullish stateUpdate.chainId s.walletState.chainId
      let accounts := jsNullish validatedAccounts s.walletState.accounts
      let isConnecting :=
        s.walletState.isConnecting &&
          !(jsTruthyOptInt chainId && accounts.isSome)
      Except.ok
        { walletState :=
            { chainId := chainId, accounts := accounts, isConnecting := isConnecting },
          nullifier := s.nullifier + 1 }

/-- `resetState()`: increments the nullifier and resets the wallet state to
`DEFAULT_WALLET_STATE`. -/
def resetState (s : StoreState) : StoreState :=
  { walletState := DEFAULT_WALLET_STATE, nullifier := s.nullifier + 1 }

/-- A lifecycle event on one wallet store: another `startConnection`, an
`update` call (possibly failing validation), or a `resetState`. -/
inductive Ev where
  | start
  | upd (u : PartialWalletState)
  | reset
deriving Repr

/-- Validation of an update payload succeeds, as a Boolean; validation in
the source is static (independent of the existing state). -/
def updValid (u : PartialWalletState) : Bool :=
  (match u.chainId with
   | some c => decide (0 < c)
   | none => true) &&
  (match u.accounts with
   | some accs => accs.all isValidAccount
   | none => true)

/-- Effect of one lifecycle event on the store.  An `update` that throws a
validation error leaves the store untouched. -/
def stepEv (s : StoreState) : Ev → StoreState
  | Ev.start => (startConnection s).2
  | Ev.upd u =>
    match update u s with
    | Except.ok s' => s'
    | Except.error _ => s
  | Ev.reset => resetState s

/-- Whether a lifecycle event actually mutates the store: `startConnection`
and `resetState` always do, an `update` only when its payload validates. -/
def effectiveEv : Ev → Bool
  | Ev.start => true
  | Ev.upd u => updValid u
  | Ev.reset => true

/-- Run a sequence of lifecycle events against the store. -/
def runEvents (s : StoreState) (evs : List Ev) : StoreState :=
  evs.foldl stepEv s

/-- A registered wallet descriptor as the proxy consumes it: a name and a
set of named hook functions (`hooks[hookName]`), with hook argument and
result types `α` and `β`. -/
structure Wallet (α β : Type) where
  name : String
  hooks : String → α → β

/-- `WalletProxyState` from the react package types:
`{currentWallet?, connectionId?}`. -/
structure WalletProxyState where
  currentWallet : Option String
  connectionId : Option Nat
deriving Repr, DecidableEq

/-- The error thrown by `createWalletProxy([])` (`EmptyWalletSet` in the
spec's taxonomy). -/
inductive ProxyError where
  | emptyWalletSet
deriving Repr, DecidableEq

/-- JS `a || b` on an optional string: `undefined` and the empty string are
falsy, so both fall through to `b`. -/
def jsOrString (a : Option String) (b : String) : String :=
  match a with
  | some s => if s = "" then b else s
  | none => b

/-- `createWalletProxy(wallets, {defaultCurrentWallet})`: throws on an
empty wallet list, otherwise builds the initial proxy store state with
`currentWallet: defaultCurrentWallet || wallets[0].name` and no
`connectionId`.  (The persistence middleware is an external collaborator;
this is the state before any rehydration.) -/
def createWalletProxy {α β : Type} (wallets : List (Wallet α β))
    (defaultCurrentWallet : Option String) :
    Except ProxyError WalletProxyState :=
  match wallets with
  | [] => Except.error ProxyError.emptyWalletSet
  | w0 :: _ =>
    Except.ok
      { currentWallet := some (jsOrString defaultCurrentWallet w0.name),
        connectionId := none }

/-- `setCurrentWallet(currentWallet)`: unconditionally writes the name into
the proxy store. -/
def setCurrentWallet (name : String) (s : WalletProxyState) : WalletProxyState :=
  { s with currentWallet := some name }

/-- `useCurrentWallet()`: look the stored `currentWallet` name up in the
registered list; when absent, repair the store via
`setCurrentWallet(wallets[0].name)` and fall back to `wallets[0]`.
The registered list is non-empty (guaranteed by `createWalletProxy`), so it
is passed as head and tail.  Returns the wallet together with the
(possibly repaired) proxy store state. -/
def useCurrentWallet {α β : Type} (w0 : Wallet α β) (rest : List (Wallet α β))
    (s : WalletProxyState) : Wallet α β × WalletProxyState :=
  match (w0 :: rest).find? (fun w => decide (s.currentWallet = some w.name)) with
  | some found => (found, s)
  | none => (w0, setCurrentWallet w0.name s)

/-- The recursion inside one combined hook built by `getCombinedHooks`:
walk the registered wallets in order, call each wallet's `hookName` hook
with the given argument, and overwrite the recorded output whenever the
wallet's name equals the current-wallet name read at call time.  The first
component is the invocation trace `(walletName, hookName, argument)` in
call order; the second is the recorded output (`undefined` as `none`). -/
def combinedHookAux {α β : Type} (wallets : List (Wallet α β)) (hookName : String)
    (currentWalletName : Option String) (a : α) (hookFnOutput : Option β) :
    List (String × String × α) × Option β :=
  match wallets with
  | [] => ([], hookFnOutput)
  | w :: rest =>
    let value := w.hooks hookName a
    let nextOutput :=
      if currentWalletName = some w.name then some value else hookFnOutput
    let r := combinedHookAux rest hookName currentWalletName a nextOutput
    ((w.name, hookName, a) :: r.1, r.2)

/-- One merged hook from `getCombinedHooks`, called with the
current-wallet name read from the proxy store at call time
(`useStore.getState().currentWallet`) and an argument. -/
def combinedHook {α β : Type} (wallets : List (Wallet α β)) (hookName : String)
    (currentWalletName : Option String) (a : α) :
    List (String × String × α) × Option β :=
  combinedHookAux wallets hookName currentWalletName a none

/-- The `connect` wrapper from `useConnect`: await the current wallet's
connector `connect` (its outcome is the `delegate` argument); on success
record `connectionId: Date.now()` (the `now` argument); on rejection the
error propagates and the store is untouched. -/
def connect {ε ρ : Type} (delegate : Except ε ρ) (now : Nat)
    (s : WalletProxyState) : Except ε Unit × WalletProxyState :=
  match delegate with
  | Except.ok _ => (Except.ok (), { s with connectionId := some now })
  | Except.error e => (Except.error e, s)

/-- The `autoConnect` wrapper from `useAutoConnect`: await the connector's
`autoConnect`; on success record `connectionId: Date.now()` and return the
delegate's result unchanged; on rejection the error propagates and the
store is untouched. -/
def autoConnect {ε : Type} (delegate : Except ε Bool) (now : Nat)
    (s : WalletProxyState) : Except ε Bool × WalletProxyState :=
  match delegate with
  | Except.ok result => (Except.ok result, { s with connectionId := some now })
  | Except.error e => (Except.error e, s)

/-- The `autoConnectOnce` wrapper from `useAutoConnectOnce`: read
`connectionId` from the proxy store; when it is falsy (`!connectionId`)
return `false` without calling the connector; otherwise delegate and
return the connector's outcome unchanged.  The last component records
whether the underlying connector was called. -/
def autoConnectOnce {ε : Type} (delegate : Except ε Bool)
    (s : WalletProxyState) : Except ε Bool × WalletProxyState × Bool :=
  if !(jsTruthyOptNat s.connectionId) then
    (Except.ok false, s, false)
  else
    (delegate, s, true)

/-- The `disconnect` wrapper from `useDisconnect`: await the connector's
`disconnect`; only after it resolves clear `connectionId`; on rejection
the error propagates and the store is untouched. -/
def disconnect {ε ρ : Type} (delegate : Except ε ρ)
    (s : WalletProxyState) : Except ε ρ × WalletProxyState :=
  match delegate with
  | Except.ok result => (Except.ok result, { s with connectionId := none })
  | Except.error e => (Except.error e, s)

/-! ### Helper lemmas about the wallet store -/

theorem validateAccounts_ok (accs : List String) (h : accs.all isValidAccount = true) :
    validateAccounts accs = Except.ok accs := by
  induction accs with
  | nil => rfl
  | cons a rest ih =>
    rw [List.all_cons, Bool.and_eq_true] at h
    simp [validateAccounts, validateAccount, h.1, ih h.2]

theorem validateAccounts_error (accs : List String) (h : accs.all isValidAccount = false) :
    validateAccounts accs = Except.error WalletStoreError.invalidAccount := by
  induction accs with
  | nil => simp at h
  | cons a rest ih =>
    by_cases ha : isValidAccount a = true
    · have hrest : rest.all isValidAccount = false := by
        rw [List.all_cons, ha, Bool.true_and] at h
        exact h
      simp [validateAccounts, validateAccount, ha, ih hrest]
    · rw [Bool.not_eq_true] at ha
      simp [validateAccounts, validateAccount, ha]

theorem updValid_chainId_pos (u : PartialWalletState) (hv : updValid u = true) :
    ∀ c, u.chainId = some c → 0 < c := by
  intro c hc
  rw [updValid, Bool.and_eq_true] at hv
  have h1 := hv.1
  rw [hc] at h1
  exact of_decide_eq_true h1

theorem updValid_accounts_ok (u : PartialWalletState) (hv : updValid u = true) :
    ∀ accs, u.accounts = some accs → accs.all isValidAccount = true := by
  intro accs ha
  rw [updValid, Bool.and_eq_true] at hv
  have h2 := hv.2
  rw [ha] at h2
  exact h2

theorem update_ok (u : PartialWalletState) (s : StoreState) (h : updValid u = true) :
    update u s =
      Except.ok
        { walletState :=
            { chainId := jsNullish u.chainId s.walletState.chainId,
              accounts := jsNullish u.accounts s.walletState.accounts,
              isConnecting :=
                s.walletState.isConnecting &&
                  !(jsTruthyOptInt (jsNullish u.chainId s.walletState.chainId) &&
                    (jsNullish u.accounts s.walletState.accounts).isSome) },
          nullifier := s.nullifier + 1 } := by
  cases hc : u.chainId with
  | some c =>
    have hcpos : 0 < c := updValid_chainId_pos u h c hc
    cases ha : u.accounts with
    | some accs =>
      have haok := updValid_accounts_ok u h accs ha
      simp [update, hc, ha, validateChainId, hcpos, validateAccounts_ok accs haok, Except.map]
    | none =>
      simp [update, hc, ha, validateChainId, hcpos]
  | none =>
    cases ha : u.accounts with
    | some accs =>
      have haok := updValid_accounts_ok u h accs ha
      simp [update, hc, ha, validateAccounts_ok accs haok, Except.map]
    | none =>
      simp [update, hc, ha]

theorem update_invalidChainId (u : PartialWalletState) (s : StoreState) (c : Int)
    (hc : u.chainId = some c) (hcpos : ¬(0 < c)) :
    update u s = Except.error WalletStoreError.invalidChainId := by
  simp [update, hc, validateChainId, hcpos]

theorem update_invalidAccount (u : PartialWalletState) (s : StoreState) (accs : List String)
    (hcOk : ∀ c, u.chainId = some c → 0 < c)
    (ha : u.accounts = some accs) (hbad : accs.all isValidAccount = false) :
    update u s = Except.error WalletStoreError.invalidAccount := by
  cases hc : u.chainId with
  | some c =>
    simp [update, hc, ha, validateChainId, hcOk c hc, validateAccounts_error accs hbad,
      Except.map]
  | none =>
    simp [update, hc, ha, validateAccounts_error accs hbad, Except.map]

theorem update_error (u : PartialWalletState) (s : StoreState) (h : updValid u = false) :
    ∃ e, update u s = Except.error e := by
  cases hc : u.chainId with
  | some c =>
    by_cases hcpos : 0 < c
    · cases ha : u.accounts with
      | some accs =>
        simp only [updValid, hc, ha] at h
        rw [decide_eq_true hcpos, Bool.true_and] at h
        exact ⟨_, update_invalidAccount u s accs
          (fun d hd => by rw [hc] at hd; cases hd; exact hcpos) ha h⟩
      | none =>
        simp only [updValid, hc, ha] at h
        simp [hcpos] at h
    · exact ⟨_, update_invalidChainId u s c hc hcpos⟩
  | none =>
    cases ha : u.accounts with
    | some accs =>
      simp only [updValid, hc, ha, Bool.true_and] at h
      exact ⟨_, update_invalidAccount u s accs (fun d hd => by rw [hc] at hd; cases hd) ha h⟩
    | none =>
      simp only [updValid, hc, ha] at h
      simp at h


theorem stepEv_effective (s : StoreState) (e : Ev) (h : effectiveEv e = true) :
    (stepEv s e).nullifier = s.nullifier + 1 := by
  cases e with
  | start => rfl
  | upd u =>
    have hu : updValid u = true := by simpa [effectiveEv] using h
    simp [stepEv, update_ok u s hu]
  | reset => rfl

theorem stepEv_ineffective (s : StoreState) (e : Ev) (h : effectiveEv e = false) :
    stepEv s e = s := by
  cases e with
  | start => simp [effectiveEv] at h
  | upd u =>
    obtain ⟨err, herr⟩ := update_error u s (by simpa [effectiveEv] using h)
    simp [stepEv, herr]
  | reset => simp [effectiveEv] at h

theorem runEvents_cons (s : StoreState) (e : Ev) (evs : List Ev) :
    runEvents s (e :: evs) = runEvents (stepEv s e) evs := rfl

theorem nullifier_le_runEvents (evs : List Ev) (s : StoreState) :
    s.nullifier ≤ (runEvents s evs).nullifier := by
  induction evs generalizing s with
  | nil => exact Nat.le_refl _
  | cons e rest ih =>
    rw [runEvents_cons]
    have h1 : s.nullifier ≤ (stepEv s e).nullifier := by
      by_cases he : effectiveEv e = true
      · rw [stepEv_effective s e he]; omega
      · rw [stepEv_ineffective s e (by simpa using he)]
    exact Nat.le_trans h1 (ih _)

theorem runEvents_all_ineffective (evs : List Ev) (s : StoreState)
    (h : evs.all (fun e => !effectiveEv e) = true) :
    runEvents s evs = s := by
  induction evs generalizing s with
  | nil => rfl
  | cons e rest ih =>
    rw [List.all_cons, Bool.and_eq_true] at h
    rw [runEvents_cons, stepEv_ineffective s e (by simpa using h.1), ih _ h.2]

theorem runEvents_lt_of_effective (evs : List Ev) (s : StoreState)
    (h : evs.all (fun e => !effectiveEv e) = false) :
    s.nullifier < (runEvents s evs).nullifier := by
  induction evs generalizing s with
  | nil => simp at h
  | cons e rest ih =>
    rw [runEvents_cons]
    by_cases he : effectiveEv e = true
    · have h1 := stepEv_effective s e he
      have h2 := nullifier_le_runEvents rest (stepEv s e)
      omega
    · have hne : effectiveEv e = false := by simpa using he
      rw [stepEv_ineffective s e hne]
      apply ih
      rw [List.all_cons] at h
      simpa [hne] using h

/-! ### Helper lemmas about the combined hooks -/

theorem combinedHookAux_trace {α β : Type} (wallets : List (Wallet α β)) (hookName : String)
    (currentWalletName : Option String) (a : α) (acc : Option β) :
    (combinedHookAux wallets hookName currentWalletName a acc).1 =
      wallets.map (fun w => (w.name, hookName, a)) := by
  induction wallets generalizing acc with
  | nil => rfl
  | cons w rest ih =>
    simp [combinedHookAux, ih]

theorem combinedHookAux_nomatch {α β : Type} (wallets : List (Wallet α β)) (hookName : String)
    (currentWalletName : Option String) (a : α) (acc : Option β)
    (h : ∀ w ∈ wallets, ¬(currentWalletName = some w.name)) :
    (combinedHookAux wallets hookName currentWalletName a acc).2 = acc := by
  induction wallets generalizing acc with
  | nil => rfl
  | cons w rest ih =>
    have hw : ¬(currentWalletName = some w.name) := h w (by simp)
    simp only [combinedHookAux, if_neg hw]
    exact ih _ (fun w' hw' => h w' (by simp [hw']))

theorem combinedHookAux_output {α β : Type} (wallets : List (Wallet α β)) (hookName : String)
    (currentWalletName : Option String) (a : α) (acc : Option β)
    (hnodup : (wallets.map (fun w => w.name)).Nodup) :
    (combinedHookAux wallets hookName currentWalletName a acc).2 =
      match wallets.find? (fun w => decide (currentWalletName = some w.name)) with
      | some w => some (w.hooks hookName a)
      | none => acc := by
  induction wallets generalizing acc with
  | nil => rfl
  | cons w rest ih =>
    rw [List.map_cons, List.nodup_cons] at hnodup
    by_cases hw : currentWalletName = some w.name
    · have hrest : ∀ w' ∈ rest, ¬(currentWalletName = some w'.name) := by
        intro w' hw' hc
        rw [hw] at hc
        have hnm : w.name = w'.name := by injection hc
        exact hnodup.1 (hnm ▸ List.mem_map_of_mem (fun x => x.name) hw')
      simp only [combinedHookAux, if_pos hw]
      rw [combinedHookAux_nomatch rest hookName currentWalletName a _ hrest]
      rw [List.find?_cons_of_pos _ (by simpa using hw)]
    · simp only [combinedHookAux, if_neg hw]
      rw [ih _ hnodup.2]
      rw [List.find?_cons_of_neg _ (by simpa using hw)]

/-! ### Claim theorems -/

/-- C1: every `endConnection` closure returned by `startConnection` clears
`isConnecting` when no other lifecycle event (another `startConnection`, an
effective `update`, or a `resetState`) has occurred on the store since the
corresponding `startConnection`, and is a no-op leaving the state unchanged
otherwise; in particular, after two `startConnection` calls in a row only
the second closure clears `isConnecting` and the first is a no-op. -/
theorem endConnection_token_correct (s₀ : StoreState) (evs : List Ev) :
    (endConnection (startConnection s₀).1 (runEvents (startConnection s₀).2 evs) =
      (if evs.all (fun e => !effectiveEv e) then
        { runEvents (startConnection s₀).2 evs with walletState.isConnecting := false }
      else runEvents (startConnection s₀).2 evs)) ∧
    (endConnection (startConnection (startConnection s₀).2).1
        (startConnection (startConnection s₀).2).2).walletState.isConnecting = false ∧
    endConnection (startConnection s₀).1
        (endConnection (startConnection (startConnection s₀).2).1
          (startConnection (startConnection s₀).2).2) =
      endConnection (startConnection (startConnection s₀).2).1
        (startConnection (startConnection s₀).2).2 := by
  refine ⟨?_, ?_, ?_⟩
  · by_cases hall : evs.all (fun e => !effectiveEv e) = true
    · rw [hall, if_pos rfl, runEvents_all_ineffective evs _ hall]
      simp [startConnection, endConnection]
    · have hb : evs.all (fun e => !effectiveEv e) = false := by simpa using hall
      have hlt := runEvents_lt_of_effective evs (startConnection s₀).2 hb
      simp only [startConnection] at hlt
      rw [hb, if_neg (by simp)]
      rw [endConnection, if_neg (by simp only [startConnection]; omega)]
  · simp [startConnection, endConnection]
  · have h2 : endConnection (startConnection (startConnection s₀).2).1
        (startConnection (startConnection s₀).2).2 =
        { (startConnection (startConnection s₀).2).2 with
            walletState.isConnecting := false } := by
      simp [startConnection, endConnection]
    rw [h2, endConnection, if_neg (by simp [startConnection])]

/-- C10: a failed `update` does not invalidate a pending connection token:
when validation rejects the payload, `update` throws without touching the
store (in particular the nullifier is unchanged), so an `endConnection`
closure obtained from a `startConnection` before the failed `update` still
clears `isConnecting` when invoked afterward. -/
theorem failed_update_preserves_token (s₀ : StoreState) (u : PartialWalletState)
    (h : updValid u = false) :
    (∃ e, update u (startConnection s₀).2 = Except.error e) ∧
    (stepEv (startConnection s₀).2 (Ev.upd u)).nullifier =
      (startConnection s₀).2.nullifier ∧
    (endConnection (startConnection s₀).1
        (stepEv (startConnection s₀).2 (Ev.upd u))).walletState.isConnecting = false := by
  have hstep := stepEv_ineffective (startConnection s₀).2 (Ev.upd u)
    (by simpa [effectiveEv] using h)
  refine ⟨update_error u _ h, by rw [hstep], ?_⟩
  rw [hstep]
  simp [startConnection, endConnection]

/-- Witness for C10 at a concrete store and the invalid payload
`{chainId: 0}`. -/
theorem failed_update_preserves_token_witness :
    (∃ e, update { chainId := some 0 }
        (startConnection ⟨DEFAULT_WALLET_STATE, 0⟩).2 = Except.error e) ∧
    (stepEv (startConnection ⟨DEFAULT_WALLET_STATE, 0⟩).2
        (Ev.upd { chainId := some 0 })).nullifier =
      (startConnection ⟨DEFAULT_WALLET_STATE, 0⟩).2.nullifier ∧
    (endConnection (startConnection ⟨DEFAULT_WALLET_STATE, 0⟩).1
        (stepEv (startConnection ⟨DEFAULT_WALLET_STATE, 0⟩).2
          (Ev.upd { chainId := some 0 }))).walletState.isConnecting = false :=
  failed_update_preserves_token ⟨DEFAULT_WALLET_STATE, 0⟩ { chainId := some 0 } (by decide)

/-- C3: on a `WalletState` with `isConnecting` true (and, per the data
model, a positive `chainId` when defined), a successful `update` whose
merge result has both `chainId` and `accounts` defined clears
`isConnecting` in that same update, with no `endConnection` call; if
either merged field is still undefined, `isConnecting` stays true. -/
theorem update_auto_clears_isConnecting (s : StoreState) (u : PartialWalletState)
    (s' : StoreState)
    (hpos : ∀ c, s.walletState.chainId = some c → 0 < c)
    (hconn : s.walletState.isConnecting = true)
    (hok : update u s = Except.ok s') :
    ((jsNullish u.chainId s.walletState.chainId).isSome = true ∧
        (jsNullish u.accounts s.walletState.accounts).isSome = true →
      s'.walletState.isConnecting = false) ∧
    (jsNullish u.chainId s.walletState.chainId = none ∨
        jsNullish u.accounts s.walletState.accounts = none →
      s'.walletState.isConnecting = true) := by
  have hv : updValid u = true := by
    by_contra hvf
    obtain ⟨e, he⟩ := update_error u s (by simpa using hvf)
    rw [he] at hok
    cases hok
  rw [update_ok u s hv] at hok
  have hs' := (Except.ok.injEq _ _).mp hok.symm
  subst hs'
  constructor
  · rintro ⟨hcs, has⟩
    have htruthy : jsTruthyOptInt (jsNullish u.chainId s.walletState.chainId) = true := by
      cases hc : u.chainId with
      | some cu =>
        have hcu := updValid_chainId_pos u hv cu hc
        simp [jsNullish, hc, jsTruthyOptInt]
        omega
      | none =>
        cases hcs2 : s.walletState.chainId with
        | none => rw [hc, hcs2] at hcs; simp [jsNullish] at hcs
        | some ce =>
          have hce := hpos ce hcs2
          simp [jsNullish, hc, hcs2, jsTruthyOptInt]
          omega
    simp [hconn, htruthy, has]
  · rintro (hnone | hnone) <;> simp [hconn, hnone, jsTruthyOptInt]

/-- Witness for C3: a concrete `update` supplying both fields while
`isConnecting` is true yields `isConnecting = false`, via the theorem. -/
theorem update_auto_clears_isConnecting_witness :
    (⟨{ chainId := some 1,
        accounts := some ["0xaaaaaaaaaaaaaaaaaaaaaaaaaaaaaaaaaaaaaaaa"],
        isConnecting := false }, 1⟩ : StoreState).walletState.isConnecting = false :=
  (update_auto_clears_isConnecting ⟨{ chainId := none, accounts := none, isConnecting := true }, 0⟩
      { chainId := some 1, accounts := some ["0xaaaaaaaaaaaaaaaaaaaaaaaaaaaaaaaaaaaaaaaa"] }
      _ (fun c hc => by cases hc) rfl (by decide)).1 ⟨rfl, rfl⟩

/-- C4: `update` validates before any state mutation: a non-positive
provided `chainId` fails with `InvalidChainId`; otherwise a malformed
provided account fails with `InvalidAccount`; in either failure case the
store is left exactly as it was; and a valid input merges the provided
fields over the existing state. -/
theorem update_validation_and_merge (s : StoreState) (u : PartialWalletState) :
    (∀ c, u.chainId = some c → ¬(0 < c) →
      update u s = Except.error WalletStoreError.invalidChainId ∧
        stepEv s (Ev.upd u) = s) ∧
    ((∀ c, u.chainId = some c → 0 < c) →
      ∀ accs, u.accounts = some accs → accs.all isValidAccount = false →
        update u s = Except.error WalletStoreError.invalidAccount ∧
          stepEv s (Ev.upd u) = s) ∧
    (updValid u = true →
      ∃ s', update u s = Except.ok s' ∧
        s'.walletState.chainId = jsNullish u.chainId s.walletState.chainId ∧
        s'.walletState.accounts = jsNullish u.accounts s.walletState.accounts) := by
  refine ⟨?_, ?_, ?_⟩
  · intro c hc hcpos
    have herr := update_invalidChainId u s c hc hcpos
    exact ⟨herr, by simp [stepEv, herr]⟩
  · intro hok accs ha hbad
    have herr := update_invalidAccount u s accs hok ha hbad
    exact ⟨herr, by simp [stepEv, herr]⟩
  · intro hv
    exact ⟨_, update_ok u s hv, rfl, rfl⟩

/-- Witness for C4: concrete invalid chain id, invalid account, and a
valid merge, each via the theorem. -/
theorem update_validation_and_merge_witness :
    (update { chainId := some 0 } ⟨DEFAULT_WALLET_STATE, 5⟩ =
        Except.error WalletStoreError.invalidChainId ∧
      stepEv ⟨DEFAULT_WALLET_STATE, 5⟩ (Ev.upd { chainId := some 0 }) =
        ⟨DEFAULT_WALLET_STATE, 5⟩) ∧
    (update { accounts := some ["nonsense"] } ⟨DEFAULT_WALLET_STATE, 5⟩ =
        Except.error WalletStoreError.invalidAccount ∧
      stepEv ⟨DEFAULT_WALLET_STATE, 5⟩ (Ev.upd { accounts := some ["nonsense"] }) =
        ⟨DEFAULT_WALLET_STATE, 5⟩) ∧
    (∃ s', update { chainId := some 9 } ⟨DEFAULT_WALLET_STATE, 5⟩ = Except.ok s' ∧
      s'.walletState.chainId =
        jsNullish (some 9) (DEFAULT_WALLET_STATE.chainId) ∧
      s'.walletState.accounts =
        jsNullish none (DEFAULT_WALLET_STATE.accounts)) :=
  ⟨(update_validation_and_merge ⟨DEFAULT_WALLET_STATE, 5⟩ { chainId := some 0 }).1
      0 rfl (by decide),
   (update_validation_and_merge ⟨DEFAULT_WALLET_STATE, 5⟩ { accounts := some ["nonsense"] }).2.1
      (fun c hc => by cases hc) ["nonsense"] rfl (by decide),
   (update_validation_and_merge ⟨DEFAULT_WALLET_STATE, 5⟩ { chainId := some 9 }).2.2
      (by decide)⟩

/-- C2: for registered wallets with distinct names, calling a merged hook
invokes each wallet's same-named hook exactly once, in registration
order, with the given argument, and returns the value recorded from the
wallet whose name equals the current-wallet name read from the proxy
store at call time (`none`, i.e. undefined, when no registered wallet has
that name). -/
theorem combinedHook_calls_all_returns_current {α β : Type} (wallets : List (Wallet α β))
    (hookName : String) (currentWalletName : Option String) (a : α)
    (hnodup : (wallets.map (fun w => w.name)).Nodup) :
    (combinedHook wallets hookName currentWalletName a
        : List (String × String × α) × Option β).1 =
      wallets.map (fun w => (w.name, hookName, a)) ∧
    (combinedHook wallets hookName currentWalletName a).2 =
      (wallets.find? (fun w => decide (currentWalletName = some w.name))).map
        (fun w => w.hooks hookName a) := by
  refine ⟨combinedHookAux_trace wallets hookName currentWalletName a none, ?_⟩
  rw [combinedHook, combinedHookAux_output wallets hookName currentWalletName a none hnodup]
  cases h : wallets.find? (fun w => decide (currentWalletName = some w.name)) <;> simp [h]

/-- Witness for C2: three wallets, hook name `useAccounts`, current wallet
`B`; the trace lists each wallet once in registration order and the output
is the current wallet's value, via the theorem. -/
theorem combinedHook_calls_all_returns_current_witness :
    (combinedHook
        [({ name := "A", hooks := fun _ n => n + 1 } : Wallet Nat Nat),
         { name := "B", hooks := fun _ n => n + 2 },
         { name := "C", hooks := fun _ n => n + 3 }]
        "useAccounts" (some "B") 10).1 =
      ([({ name := "A", hooks := fun _ n => n + 1 } : Wallet Nat Nat),
        { name := "B", hooks := fun _ n => n + 2 },
        { name := "C", hooks := fun _ n => n + 3 }].map
          (fun w => (w.name, "useAccounts", 10))) ∧
    (combinedHook
        [({ name := "A", hooks := fun _ n => n + 1 } : Wallet Nat Nat),
         { name := "B", hooks := fun _ n => n + 2 },
         { name := "C", hooks := fun _ n => n + 3 }]
        "useAccounts" (some "B") 10).2 =
      (([({ name := "A", hooks := fun _ n => n + 1 } : Wallet Nat Nat),
         { name := "B", hooks := fun _ n => n + 2 },
         { name := "C", hooks := fun _ n => n + 3 }].find?
          (fun w => decide ((some "B" : Option String) = some w.name))).map
        (fun w => w.hooks "useAccounts" 10)) :=
  combinedHook_calls_all_returns_current
    [({ name := "A", hooks := fun _ n => n + 1 } : Wallet Nat Nat),
     { name := "B", hooks := fun _ n => n + 2 },
     { name := "C", hooks := fun _ n => n + 3 }]
    "useAccounts" (some "B") 10 (by simp)

/-- C5: selecting a wallet name absent from the registered set, then
reading the current wallet, returns the first registered wallet and also
writes the first registered wallet's name back into the proxy store as
`currentWallet`. -/
theorem useCurrentWallet_repairs_stale_name {α β : Type} (w0 : Wallet α β)
    (rest : List (Wallet α β)) (s : WalletProxyState) (name : String)
    (h : name ∉ (w0 :: rest).map (fun w => w.name)) :
    useCurrentWallet w0 rest (setCurrentWallet name s) =
      (w0, { currentWallet := some w0.name, connectionId := s.connectionId }) := by
  have hfind : (w0 :: rest).find?
      (fun w => decide ((setCurrentWallet name s).currentWallet = some w.name)) = none := by
    rw [List.find?_eq_none]
    intro w hw
    simp only [setCurrentWallet, decide_eq_true_eq, Option.some.injEq]
    intro heq
    exact h (heq ▸ List.mem_map_of_mem (fun w => w.name) hw)
  rw [useCurrentWallet, hfind]
  rfl

/-- Witness for C5: two wallets `A`, `B`; selecting the absent name `Z`
and reading repairs the store to `A`, via the theorem. -/
theorem useCurrentWallet_repairs_stale_name_witness :
    useCurrentWallet ({ name := "A", hooks := fun _ n => n } : Wallet Nat Nat)
        [{ name := "B", hooks := fun _ n => n }]
        (setCurrentWallet "Z" ⟨some "A", some 3⟩) =
      ({ name := "A", hooks := fun _ n => n },
        { currentWallet := some "A", connectionId := some 3 }) :=
  useCurrentWallet_repairs_stale_name
    ({ name := "A", hooks := fun _ n => n } : Wallet Nat Nat)
    [{ name := "B", hooks := fun _ n => n }] ⟨some "A", some 3⟩ "Z" (by simp)

/-- Counterexample to C6 as stated: when the delegated `disconnect`
rejects, `connectionId` is NOT cleared — the `await` throws before the
store write, so a store holding `connectionId = 5` still holds it after
the failing `disconnect`, contradicting "clears connectionId ... whether
the delegated call succeeds or fails". -/
theorem disconnect_error_keeps_connectionId_cex :
    (disconnect (Except.error 0 : Except Nat Unit)
        ⟨some "MetaMask", some 5⟩).2.connectionId = some 5 ∧
    (some 5 : Option Nat) ≠ none :=
  ⟨rfl, by decide⟩

/-- C6 amended: `disconnect` delegates to the connector; whenever the
delegate resolves (whatever value it returns) `connectionId` is cleared,
while a rejected delegate propagates the error and leaves the store
unchanged; after a successful `connect` followed by a successful
`disconnect`, `connectionId` is defined after the connect and unset after
the disconnect. -/
theorem disconnect_clears_connectionId_amended {ε ρ ρ' : Type} (r : ρ) (e : ε)
    (s : WalletProxyState) (now : Nat) (r' : ρ') :
    (disconnect (Except.ok r : Except ε ρ) s).1 = Except.ok r ∧
    (disconnect (Except.ok r : Except ε ρ) s).2.connectionId = none ∧
    disconnect (Except.error e : Except ε ρ) s = (Except.error e, s) ∧
    (connect (Except.ok r' : Except ε ρ') now s).2.connectionId = some now ∧
    (disconnect (Except.ok r : Except ε ρ)
        (connect (Except.ok r' : Except ε ρ') now s).2).2.connectionId = none :=
  ⟨rfl, rfl, rfl, rfl, rfl⟩

/-- Counterexample to C7 as stated: with `connectionId` present but equal
to `0`, the guard `!connectionId` is true by JS falsiness, so the wrapper
returns `false` without calling the connector even though `connectionId`
is set — contradicting "when connectionId is set, it delegates". -/
theorem autoConnectOnce_zero_connectionId_cex :
    (⟨some "MetaMask", some 0⟩ : WalletProxyState).connectionId ≠ none ∧
    autoConnectOnce (Except.ok true : Except Unit Bool) ⟨some "MetaMask", some 0⟩ =
      (Except.ok false, ⟨some "MetaMask", some 0⟩, false) :=
  ⟨by decide, rfl⟩

/-- C7 amended: `autoConnectOnce` returns `false` without calling the
underlying connector when `connectionId` is unset or zero (the guard is
JS falsiness of the stored timestamp); when `connectionId` holds a
nonzero value it delegates, returns the connector's outcome unchanged,
and never modifies the proxy store. -/
theorem autoConnectOnce_guard_amended {ε : Type} (delegate : Except ε Bool)
    (s : WalletProxyState) :
    (s.connectionId = none ∨ s.connectionId = some 0 →
      autoConnectOnce delegate s = (Except.ok false, s, false)) ∧
    (∀ n, s.connectionId = some n → n ≠ 0 →
      autoConnectOnce delegate s = (delegate, s, true)) ∧
    (autoConnectOnce delegate s).2.1 = s := by
  refine ⟨?_, ?_, ?_⟩
  · rintro (h | h) <;> simp [autoConnectOnce, jsTruthyOptNat, h]
  · intro n h hn
    simp [autoConnectOnce, jsTruthyOptNat, h, hn]
  · by_cases h : jsTruthyOptNat s.connectionId = true <;>
      simp [autoConnectOnce, h]

/-- Witness for C7 (amended): the suppressed call with no `connectionId`
and the delegated call with `connectionId = 7`, via the theorem. -/
theorem autoConnectOnce_guard_amended_witness :
    autoConnectOnce (Except.ok true : Except Unit Bool) ⟨some "A", none⟩ =
      (Except.ok false, ⟨some "A", none⟩, false) ∧
    autoConnectOnce (Except.ok true : Except Unit Bool) ⟨some "A", some 7⟩ =
      (Except.ok true, ⟨some "A", some 7⟩, true) :=
  ⟨(autoConnectOnce_guard_amended (Except.ok true) ⟨some "A", none⟩).1 (Or.inl rfl),
   (autoConnectOnce_guard_amended (Except.ok true) ⟨some "A", some 7⟩).2.1 7 rfl
     (by decide)⟩

/-- C8: `autoConnect` delegates and, whenever the delegated call resolves,
sets `connectionId` to the current timestamp regardless of the returned
value (including `false`), and returns the delegate's result unchanged. -/
theorem autoConnect_sets_connectionId {ε : Type} (result : Bool) (now : Nat)
    (s : WalletProxyState) :
    autoConnect (Except.ok result : Except ε Bool) now s =
      (Except.ok result, { s with connectionId := some now }) ∧
    autoConnect (Except.ok false : Except ε Bool) now s =
      (Except.ok false, { s with connectionId := some now }) :=
  ⟨rfl, rfl⟩

/-- Counterexample to C9 as stated: the constructor computes
`defaultCurrentWallet || wallets[0].name` with JS `||`, so the explicitly
given empty-string default is discarded (it is falsy) and the first
wallet's name is used instead, contradicting "the explicit
defaultCurrentWallet option when given". -/
theorem createWalletProxy_empty_string_default_cex :
    createWalletProxy [({ name := "MetaMask", hooks := fun _ n => n } : Wallet Nat Nat)]
        (some "") =
      Except.ok { currentWallet := some "MetaMask", connectionId := none } ∧
    (some "MetaMask" : Option String) ≠ some "" :=
  ⟨rfl, by decide⟩

/-- C9 amended: `createWalletProxy` with an empty wallet sequence fails
with the empty-wallet-set error and constructs nothing; with a non-empty
sequence the initial `currentWallet` is the explicit
`defaultCurrentWallet` option when given and non-empty, and otherwise
(option absent, or given as the falsy empty string) the first registered
wallet's name. -/
theorem createWalletProxy_construction_amended {α β : Type}
    (wallets : List (Wallet α β)) (d : Option String) :
    (wallets = [] →
      createWalletProxy wallets d = Except.error ProxyError.emptyWalletSet) ∧
    (∀ w0 rest, wallets = w0 :: rest →
      (∀ n, d = some n → n ≠ "" →
        createWalletProxy wallets d =
          Except.ok { currentWallet := some n, connectionId := none }) ∧
      (d = none ∨ d = some "" →
        createWalletProxy wallets d =
          Except.ok { currentWallet := some w0.name, connectionId := none })) := by
  constructor
  · rintro rfl
    rfl
  · rintro w0 rest rfl
    constructor
    · rintro n rfl hne
      simp [createWalletProxy, jsOrString, hne]
    · rintro (rfl | rfl) <;> simp [createWalletProxy, jsOrString]

/-- Witness for C9 (amended): the empty-list failure, a non-empty default
taken verbatim, and the fallback to the first wallet's name, via the
theorem. -/
theorem createWalletProxy_construction_amended_witness :
    createWalletProxy ([] : List (Wallet Nat Nat)) none =
      Except.error ProxyError.emptyWalletSet ∧
    createWalletProxy [({ name := "A", hooks := fun _ n => n } : Wallet Nat Nat)]
        (some "B") =
      Except.ok { currentWallet := some "B", connectionId := none } ∧
    createWalletProxy [({ name := "A", hooks := fun _ n => n } : Wallet Nat Nat)] none =
      Except.ok { currentWallet := some "A", connectionId := none } :=
  ⟨(createWalletProxy_construction_amended ([] : List (Wallet Nat Nat)) none).1 rfl,
   ((createWalletProxy_construction_amended
        [({ name := "A", hooks := fun _ n => n } : Wallet Nat Nat)] (some "B")).2
      _ _ rfl).1 "B" rfl (by decide),
   ((createWalletProxy_construction_amended
        [({ name := "A", hooks := fun _ n => n } : Wallet Nat Nat)] none).2
      _ _ rfl).2 (Or.inl rfl)⟩
